import Mathlib

/-!
Verification of the GoQuant trading-system core against its specification.

The definitions below are a shallow embedding of the Python sources:
`websocket_client.py` (latest-tick slot, ingestion loop, per-symbol
registry), `utils/fee_model.py`, `models/slippage_model.py`,
`models/market_impact_model.py`, `models/maker_taker_model.py`, and the
`update_metrics` / `validate_inputs` callbacks plus the execution-trajectory
computation of `app.py`.  Python floats are modelled as real numbers (exact
rationals where the code is purely rational), fallible code returns
`Except`, and the stateful ingestion layer is modelled by explicit state
passing over a step relation.
-/

namespace GoQuant

/-- The per-symbol latest-tick holding cell.  In `websocket_client.py` this
is `Queue(maxsize=1)`: it is empty or holds exactly one unread item. -/
abbrev Slot (α : Type) := Option α

/-- `queue.put(item, block=False)` guarded by `except Full: pass`
(`_ws_listener`, lines 40-47): when the slot already holds an unread item
the put raises `Full`, the exception is swallowed, and the NEW item is
dropped; the pending item stays. -/
def slot_put {α : Type} (s : Slot α) (item : α) : Slot α :=
  match s with
  | none => some item
  | some pending => some pending

/-- A consumer read of the slot (`queue.get`): it returns the pending item
if any (`none` reports an empty slot) and leaves the slot empty. -/
def slot_read {α : Type} (s : Slot α) : Option α × Slot α :=
  (s, none)

/-- `PING_INTERVAL = 5` in `_ws_listener`. -/
def PING_INTERVAL : ℕ := 5

/-- `PING_TIMEOUT = 5` in `_ws_listener`. -/
def PING_TIMEOUT : ℕ := 5

/-- `RECONNECT_DELAY = 1` in `_ws_listener`: seconds slept before a retry. -/
def RECONNECT_DELAY : ℕ := 1

/-- One observable event of the `_ws_listener` loop: the
`websockets.connect` attempt succeeds or raises, and while connected a
`recv` yields a message or raises (handshake error, ping timeout,
transport close - every exception lands in the same `except` branch). -/
inductive WsEvent (α : Type) where
  | connectOk
  | connectFail
  | recvMsg (message : α)
  | recvFail

/-- State of one `_ws_listener` loop: which connection attempt is current
(1-based), whether a connection is live, the symbol's slot, and the total
seconds spent in reconnect sleeps.  The inductive has no terminal
constructor because the `while True:` loop has no exit path: every
exception is caught by the `except` branch. -/
structure ListenerState (α : Type) where
  attempt : ℕ
  connected : Bool
  slot : Slot α
  slept : ℕ

/-- One iteration of the `_ws_listener` loop body.  A received message is
written to the slot with `slot_put`; any failure is logged, the loop
sleeps `RECONNECT_DELAY` seconds and moves to the next connection
attempt - unconditionally, with no backoff cap and no give-up state. -/
def ws_listener_step {α : Type} (st : ListenerState α) (e : WsEvent α) : ListenerState α :=
  if st.connected then
    match e with
    | .recvMsg m => ⟨st.attempt, true, slot_put st.slot m, st.slept⟩
    | .recvFail => ⟨st.attempt + 1, false, st.slot, st.slept + RECONNECT_DELAY⟩
    | _ => st
  else
    match e with
    | .connectOk => ⟨st.attempt, true, st.slot, st.slept⟩
    | .connectFail => ⟨st.attempt + 1, false, st.slot, st.slept + RECONNECT_DELAY⟩
    | _ => st

/-- The loop's start state: about to make connection attempt 1, slot empty. -/
def ws_listener_init (α : Type) : ListenerState α := ⟨1, false, none, 0⟩

/-- Run the `_ws_listener` loop over a finite prefix of its event trace. -/
def ws_listener_run {α : Type} (st : ListenerState α) (events : List (WsEvent α)) :
    ListenerState α :=
  events.foldl ws_listener_step st

/-- The module-level mutable state of `websocket_client.py`: the
`orderbook_queues` dict (symbol to slot, slots identified by creation
order) and the live listener-thread names from `threading.enumerate()`. -/
structure WsRegistry where
  queues : List (String × ℕ)
  nextSlotId : ℕ
  threads : List String

/-- `get_orderbook_queue(symbol)`: return the symbol's queue, creating it
if absent. -/
def get_orderbook_queue (symbol : String) (st : WsRegistry) : ℕ × WsRegistry :=
  match st.queues.lookup symbol with
  | some q => (q, st)
  | none => (st.nextSlotId,
      ⟨(symbol, st.nextSlotId) :: st.queues, st.nextSlotId + 1, st.threads⟩)

/-- `run_listener_for_symbol(symbol)`: fetch (or create) the symbol's
queue, then start a listener thread named `ws-<symbol>` unless a thread of
that name is already running.  The returned number is the slot the
(started or already-running) listener is bound to. -/
def run_listener_for_symbol (symbol : String) (st : WsRegistry) : ℕ × WsRegistry :=
  if (get_orderbook_queue symbol st).2.threads.contains ("ws-" ++ symbol) then
    get_orderbook_queue symbol st
  else
    ((get_orderbook_queue symbol st).1,
      ⟨(get_orderbook_queue symbol st).2.queues, (get_orderbook_queue symbol st).2.nextSlotId,
        ("ws-" ++ symbol) :: (get_orderbook_queue symbol st).2.threads⟩)

/-- The `ValueError("Unknown fee tier ...")` raised by `calculate_fee`. -/
inductive FeeError where
  | unknownFeeTier (name : String)
deriving DecidableEq

/-- `FEE_TIERS` of `utils/fee_model.py`: tier name to (maker, taker) rate.
The decimal literals 0.0010, 0.0020, ... are exact rationals. -/
def FEE_TIERS (K : Type) [DivisionRing K] : List (String × K × K) :=
  [("Tier 0", 10 / 10000, 20 / 10000),
   ("Tier 1", 8 / 10000, 18 / 10000),
   ("Tier 2", 6 / 10000, 16 / 10000)]

/-- `calculate_fee(price, quantity, fee_tier, is_taker)`: look the tier up,
raise `ValueError` when absent, otherwise `price * quantity * rate` with
the taker or maker rate as requested. -/
def calculate_fee (K : Type) [DivisionRing K] (price quantity : K) (fee_tier : String)
    (is_taker : Bool) : Except FeeError K :=
  match (FEE_TIERS K).lookup fee_tier with
  | none => .error (.unknownFeeTier fee_tier)
  | some tier => .ok (price * quantity * (if is_taker then tier.2 else tier.1))

/-- `estimate_slippage(spread, quantity, model_params)`: linear model
`coef * spread * quantity`, with `coef = 1.0` unless the params supply a
coefficient. -/
noncomputable def estimate_slippage (spread quantity : ℝ) (model_params : Option ℝ) : ℝ :=
  let coef : ℝ :=
    match model_params with
    | some c => c
    | none => 1
  coef * spread * quantity

/-- The `ZeroDivisionError` a Python float division can raise. -/
inductive PyNumError where
  | zeroDivision
deriving DecidableEq

/-- Python float division: raises `ZeroDivisionError` on a zero divisor. -/
noncomputable def pydiv (a b : ℝ) : Except PyNumError ℝ :=
  if b = 0 then .error .zeroDivision else .ok (a / b)

/-- `almgren_chriss_impact` of `models/market_impact_model.py`:
`eta * (q/T)^alpha + gamma * (q/T)^beta + 0.5 * lambda * sigma^2 * q^2 / T`.
The float exponentiations `** alpha` and `** beta` are real powers. -/
noncomputable def almgren_chriss_impact
    (quantity time_horizon alpha beta gamma eta volatility risk_aversion : ℝ) : ℝ :=
  let temp_impact := eta * (quantity / time_horizon) ^ alpha
  let perm_impact := gamma * (quantity / time_horizon) ^ beta
  let risk_term := 0.5 * risk_aversion * volatility ^ 2 * quantity ^ 2 / time_horizon
  temp_impact + perm_impact + risk_term

/-- `almgren_chriss_impact` with its two divisions by `time_horizon` made
explicit as fallible Python float divisions; the function performs no
input validation of its own. -/
noncomputable def almgren_chriss_impact_checked
    (quantity time_horizon alpha beta gamma eta volatility risk_aversion : ℝ) :
    Except PyNumError ℝ := do
  let q_over_t ← pydiv quantity time_horizon
  let temp_impact := eta * q_over_t ^ alpha
  let perm_impact := gamma * q_over_t ^ beta
  let risk_term ← pydiv (0.5 * risk_aversion * volatility ^ 2 * quantity ^ 2) time_horizon
  return temp_impact + perm_impact + risk_term

/-- `np.dot` on two feature/weight vectors. -/
noncomputable def dot (a b : List ℝ) : ℝ :=
  (List.zipWith (fun x y => x * y) a b).sum

/-- The `model_params` dict of `predict_maker_proportion`: a weight vector
and a bias. -/
structure LogitParams where
  weights : List ℝ
  bias : ℝ

/-- `predict_maker_proportion(features, model_params)`: logistic regression
`1 / (1 + exp(-(weights . features + bias)))`; with no params supplied the
weights default to `np.zeros(features.shape)` and the bias to `0.0`. -/
noncomputable def predict_maker_proportion (features : List ℝ)
    (model_params : Option LogitParams) : ℝ :=
  let params : LogitParams :=
    match model_params with
    | some p => p
    | none => ⟨List.replicate features.length 0, 0⟩
  let logits := dot params.weights features + params.bias
  1 / (1 + Real.exp (-logits))

/-- `np.linspace(0, T, N + 1)`: the N+1 sample times `i * (T / N)`. -/
noncomputable def traj_times (T : ℝ) (N : ℕ) : List ℝ :=
  (List.range (N + 1)).map (fun i : ℕ => (i : ℝ) * (T / N))

/-- The Almgren-Chriss execution-trajectory computation of
`update_metrics` (app.py lines 281-287): when `eta > 0 and lam * sigma**2 > 0`
it samples `X * sinh(kappa * (T - t)) / sinh(kappa * T)` with
`kappa = sqrt(lam * sigma**2 / eta)`; otherwise linear decay
`X * (1 - t / T)`. -/
noncomputable def exec_trajectory (X eta sigma lam T : ℝ) (N : ℕ) : List ℝ :=
  if 0 < eta ∧ 0 < lam * sigma ^ 2 then
    let kappa := Real.sqrt (lam * sigma ^ 2 / eta)
    (traj_times T N).map (fun t => X * Real.sinh (kappa * (T - t)) / Real.sinh (kappa * T))
  else
    (traj_times T N).map (fun t => X * (1 - t / T))

/-- The parsed `data` field of an SSE message: bid and ask levels as
(price, size) pairs, best level first. -/
structure TickData where
  bids : List (ℝ × ℝ)
  asks : List (ℝ × ℝ)

/-- A parsed SSE message `{data: ..., timestamp: ...}`. -/
structure Payload where
  data : TickData
  timestamp : ℝ

/-- The numeric outputs of one `update_metrics` invocation (the four
plotly figures are display-only and carry the same numbers). -/
structure MetricsOut where
  slippage : ℝ
  fees : ℝ
  impact : ℝ
  net_cost : ℝ
  maker_prop : ℝ
  latency : ℝ
  trajectory : List ℝ

/-- How one `update_metrics` call ends: `raise PreventUpdate` (Dash
renders nothing - the same signal whatever the cause), an exception
escaping the callback (only `calculate_fee` can raise one here), or a
computed output. -/
inductive UpdateResult where
  | preventUpdate
  | feeFailure (e : FeeError)
  | output (m : MetricsOut)

/-- The `update_metrics` callback of `app.py` (lines 187-198 and onward):
`PreventUpdate` when there is no message, when paused, or when the
input-validation alert is open; `PreventUpdate` again when the tick's bid
or ask side is empty; otherwise compute slippage, fee (taker), impact
(alpha = beta = 1, gamma = eta = 0.05), net cost, maker proportion and the
execution trajectory.  The callback itself validates no parameter. -/
noncomputable def update_metrics (message : Option Payload) (quantity_usd volatility : ℝ)
    (fee_tier : String) (risk_aversion time_horizon : ℝ) (time_steps : ℕ)
    (paused alert_open : Bool) (latency : ℝ) : UpdateResult :=
  match message with
  | none => .preventUpdate
  | some payload =>
    if paused || alert_open then .preventUpdate
    else
      let bids := payload.data.bids
      let asks := payload.data.asks
      if bids.isEmpty || asks.isEmpty then .preventUpdate
      else
        let best_bid := (bids.headD (0, 0)).1
        let best_ask := (asks.headD (0, 0)).1
        let mid_price := 0.5 * (best_bid + best_ask)
        let spread := best_ask - best_bid
        let slippage := estimate_slippage spread (quantity_usd / mid_price) none
        match calculate_fee ℝ mid_price (quantity_usd / mid_price) fee_tier true with
        | .error e => .feeFailure e
        | .ok fees =>
          let impact := almgren_chriss_impact (quantity_usd / mid_price) time_horizon
            1 1 0.05 0.05 volatility risk_aversion
          let net_cost := slippage + fees + impact
          let maker_prop := predict_maker_proportion
            [spread, quantity_usd / mid_price, volatility] none
          let traj := exec_trajectory (quantity_usd / mid_price) 0.05 volatility
            risk_aversion time_horizon time_steps
          .output ⟨slippage, fees, impact, net_cost, maker_prop, latency, traj⟩

/-- The `validate_inputs` callback of `app.py` (lines 380-396): it does
not touch the pipeline; it only assembles an alert message and an is-open
flag that a later `update_metrics` call reads as `alert_open`. -/
def validate_inputs (quantity_usd volatility risk_aversion time_horizon time_steps :
    Option ℚ) : String × Bool :=
  let errors : List String :=
    (if quantity_usd.isNone ∨ quantity_usd.getD 0 ≤ 0
      then ["Quantity must be > 0"] else [])
    ++ (if volatility.isNone ∨ volatility.getD 0 < 0
      then ["Volatility must be >= 0"] else [])
    ++ (if risk_aversion.isNone ∨ risk_aversion.getD 0 < 0
      then ["Risk aversion must be >= 0"] else [])
    ++ (if time_horizon.isNone ∨ time_horizon.getD 0 ≤ 0
      then ["Time horizon (T) must be > 0"] else [])
    ++ (if time_steps.isNone ∨ time_steps.getD 0 ≤ 0 ∨ (time_steps.getD 0).den ≠ 1
      then ["Time steps (N) must be a positive integer"] else [])
  if errors.isEmpty then ("", false) else (String.intercalate "; " errors, true)

/-- A tick whose bid side is empty (asks present). -/
noncomputable def tick_no_bids : Payload := ⟨⟨[], [((101 : ℝ), 2)]⟩, 0⟩

/-- A well-formed tick: one bid level and one ask level. -/
noncomputable def tick_good : Payload := ⟨⟨[((100 : ℝ), 1)], [((101 : ℝ), 1)]⟩, 0⟩

/-- Claim C1, the code evaluated at the failing input: with the slot as
`websocket_client.py` implements it (`put(..., block=False)` under
`except Full: pass`), after the producer writes tick 1 and then tick 2
with no intervening read, a read returns tick 1 and not tick 2 - the
pending unread value survives and the NEW value is dropped, contrary to
the claimed overwrite semantics and to the code's own comments ("keep
only newest tick").  A read of a slot with no writes reports empty. -/
theorem slot_keeps_oldest_unread :
    (slot_read (slot_put (slot_put (none : Slot ℕ) 1) 2)).1 = some 1
    ∧ (slot_read (slot_put (slot_put (none : Slot ℕ) 1) 2)).1 ≠ some 2
    ∧ (slot_read (none : Slot ℕ)).1 = none := by
  refine ⟨rfl, ?_, rfl⟩
  decide

/-- Auxiliary for C8: from any unconnected state, N consecutive connection
failures advance the attempt counter by N and accumulate N reconnect
delays, leaving the loop unconnected and the slot untouched. -/
theorem ws_listener_run_connectFail {α : Type} (N : ℕ) (st : ListenerState α)
    (h : st.connected = false) :
    ws_listener_run st (List.replicate N WsEvent.connectFail)
      = ⟨st.attempt + N, false, st.slot, st.slept + N * RECONNECT_DELAY⟩ := by
  induction N generalizing st with
  | zero =>
    obtain ⟨a, c, s, d⟩ := st
    simp only at h
    subst h
    simp [ws_listener_run]
  | succ m ih =>
    obtain ⟨a, c, s, d⟩ := st
    simp only at h
    subst h
    rw [List.replicate_succ]
    show ws_listener_run
        (ws_listener_step (⟨a, false, s, d⟩ : ListenerState α) WsEvent.connectFail)
        (List.replicate m WsEvent.connectFail) = _
    rw [show ws_listener_step (⟨a, false, s, d⟩ : ListenerState α) WsEvent.connectFail
        = ⟨a + 1, false, s, d + RECONNECT_DELAY⟩ from rfl]
    rw [ih ⟨a + 1, false, s, d + RECONNECT_DELAY⟩ rfl]
    simp only [ListenerState.mk.injEq]
    refine ⟨by omega, trivial, trivial, by ring⟩

/-- Claim C8: the per-symbol ingestion loop never reaches a terminal or
failed state.  After any number N of consecutive connection failures -
each handled by logging and a fixed `RECONNECT_DELAY = 1` second sleep -
the loop is attempting connection N+1, still not terminated (the step
function is total and `ListenerState` has no terminal constructor: no
exception escapes the `while True` / `except` loop, and there is no
backoff cap or give-up state). -/
theorem ws_listener_retries_forever (N : ℕ) :
    (ws_listener_run (ws_listener_init ℕ) (List.replicate N WsEvent.connectFail)).attempt
        = N + 1
    ∧ (ws_listener_run (ws_listener_init ℕ) (List.replicate N WsEvent.connectFail)).connected
        = false
    ∧ (ws_listener_run (ws_listener_init ℕ) (List.replicate N WsEvent.connectFail)).slept
        = N * RECONNECT_DELAY := by
  rw [ws_listener_run_connectFail N (ws_listener_init ℕ) rfl]
  refine ⟨?_, rfl, ?_⟩
  · show 1 + N = N + 1
    omega
  · show 0 + N * RECONNECT_DELAY = N * RECONNECT_DELAY
    omega

/-- Claim C5: `calculate_fee` returns `price * quantity * rate` with the
looked-up taker (or maker) rate, raises the unknown-fee-tier error exactly
when the tier is not a key of the table, and on the spec's concrete input
gives `calculate_fee(100, 2, "Tier 0", taker) = 100 * 2 * 0.0020 = 0.40`. -/
theorem calculate_fee_spec (price quantity : ℚ) (ft : String) (tk : Bool) :
    (∀ mk tkr : ℚ, (FEE_TIERS ℚ).lookup ft = some (mk, tkr) →
        calculate_fee ℚ price quantity ft tk
          = .ok (price * quantity * (if tk then tkr else mk)))
    ∧ ((FEE_TIERS ℚ).lookup ft = none ↔
        calculate_fee ℚ price quantity ft tk = .error (.unknownFeeTier ft))
    ∧ calculate_fee ℚ 100 2 "Tier 0" true = .ok (40 / 100) := by
  refine ⟨?_, ?_, ?_⟩
  case refine_3 =>
    simp [calculate_fee, FEE_TIERS, List.lookup]
    norm_num
  · intro mk tkr hlk
    simp [calculate_fee, hlk]
  · cases hlk : (FEE_TIERS ℚ).lookup ft with
    | none => simp [calculate_fee, hlk]
    | some tier => simp [calculate_fee, hlk]

/-- Auxiliary for C9: `get_orderbook_queue` never touches the thread set. -/
theorem get_orderbook_queue_threads (symbol : String) (st : WsRegistry) :
    (get_orderbook_queue symbol st).2.threads = st.threads := by
  unfold get_orderbook_queue
  cases st.queues.lookup symbol <;> rfl

/-- Auxiliary for C9: after `get_orderbook_queue`, the symbol maps to the
returned slot. -/
theorem get_orderbook_queue_lookup (symbol : String) (st : WsRegistry) :
    (get_orderbook_queue symbol st).2.queues.lookup symbol
      = some (get_orderbook_queue symbol st).1 := by
  unfold get_orderbook_queue
  cases hlk : st.queues.lookup symbol with
  | none => simp [List.lookup]
  | some q => simp [hlk]

/-- Auxiliary for C9: a registry that already maps the symbol to a queue
and already runs a `ws-<symbol>` thread is left untouched. -/
theorem run_listener_stable (symbol : String) (st : WsRegistry) (q : ℕ)
    (hlk : st.queues.lookup symbol = some q)
    (hct : st.threads.contains ("ws-" ++ symbol) = true) :
    run_listener_for_symbol symbol st = (q, st) := by
  have hget : get_orderbook_queue symbol st = (q, st) := by
    unfold get_orderbook_queue
    rw [hlk]
  unfold run_listener_for_symbol
  rw [hget, if_pos hct]

/-- Auxiliary for C9: `run_listener_for_symbol` returns the queue that
`get_orderbook_queue` bound, extends the thread set with `ws-<symbol>`
only when absent, and leaves the queue registry as `get_orderbook_queue`
left it. -/
theorem run_listener_parts (symbol : String) (st : WsRegistry) :
    (run_listener_for_symbol symbol st).1 = (get_orderbook_queue symbol st).1
    ∧ (run_listener_for_symbol symbol st).2.queues
        = (get_orderbook_queue symbol st).2.queues
    ∧ (run_listener_for_symbol symbol st).2.threads
        = (if st.threads.contains ("ws-" ++ symbol) then st.threads
           else ("ws-" ++ symbol) :: st.threads) := by
  unfold run_listener_for_symbol
  rw [get_orderbook_queue_threads]
  by_cases hc : st.threads.contains ("ws-" ++ symbol) = true
  · rw [if_pos hc, if_pos hc]
    exact ⟨rfl, rfl, get_orderbook_queue_threads symbol st⟩
  · rw [if_neg hc, if_neg hc]
    exact ⟨rfl, rfl, rfl⟩

/-- Claim C9: `run_listener_for_symbol` is idempotent.  Starting from a
registry with at most one live `ws-<symbol>` thread (the only states the
module can produce), two sequential calls leave the state of the first
call unchanged, bind to the same slot, and exactly one `ws-<symbol>`
ingestion task is live after the first call and still after the second. -/
theorem subscribe_idempotent (symbol : String) (st : WsRegistry)
    (h : st.threads.count ("ws-" ++ symbol) ≤ 1) :
    (run_listener_for_symbol symbol (run_listener_for_symbol symbol st).2).2
      = (run_listener_for_symbol symbol st).2
    ∧ (run_listener_for_symbol symbol (run_listener_for_symbol symbol st).2).1
      = (run_listener_for_symbol symbol st).1
    ∧ (run_listener_for_symbol symbol st).2.threads.count ("ws-" ++ symbol) = 1
    ∧ (run_listener_for_symbol symbol (run_listener_for_symbol symbol st).2).2.threads.count
        ("ws-" ++ symbol) = 1 := by
  obtain ⟨r1q, r1qs, r1th⟩ := run_listener_parts symbol st
  have hmem1 : ("ws-" ++ symbol) ∈ (run_listener_for_symbol symbol st).2.threads := by
    rw [r1th]
    by_cases hc : st.threads.contains ("ws-" ++ symbol) = true
    · rw [if_pos hc]
      exact List.elem_iff.mp hc
    · rw [if_neg hc]
      exact List.mem_cons_self _ _
  have hct1 : (run_listener_for_symbol symbol st).2.threads.contains ("ws-" ++ symbol)
      = true := List.elem_iff.mpr hmem1
  have hlk1 : (run_listener_for_symbol symbol st).2.queues.lookup symbol
      = some (run_listener_for_symbol symbol st).1 := by
    rw [r1qs, r1q]
    exact get_orderbook_queue_lookup symbol st
  have hrun2 : run_listener_for_symbol symbol (run_listener_for_symbol symbol st).2
      = ((run_listener_for_symbol symbol st).1, (run_listener_for_symbol symbol st).2) :=
    run_listener_stable symbol (run_listener_for_symbol symbol st).2
      (run_listener_for_symbol symbol st).1 hlk1 hct1
  have hcount : (run_listener_for_symbol symbol st).2.threads.count ("ws-" ++ symbol) = 1 := by
    rw [r1th]
    by_cases hc : st.threads.contains ("ws-" ++ symbol) = true
    · rw [if_pos hc]
      have hmem : ("ws-" ++ symbol) ∈ st.threads := List.elem_iff.mp hc
      have hpos : 0 < st.threads.count ("ws-" ++ symbol) :=
        List.count_pos_iff.mpr hmem
      omega
    · rw [if_neg hc]
      have hnot : ("ws-" ++ symbol) ∉ st.threads := fun hmem =>
        hc (List.elem_iff.mpr hmem)
      rw [List.count_cons_self, List.count_eq_zero.mpr hnot]
  exact ⟨by rw [hrun2], by rw [hrun2], hcount, by rw [hrun2]; exact hcount⟩

/-- Witness for C9: from the empty registry, subscribing twice to
BTC-USDT-SWAP yields exactly one live ingestion task for it. -/
theorem subscribe_idempotent_witness :
    (run_listener_for_symbol "BTC-USDT-SWAP" (WsRegistry.mk [] 0 [])).2.threads.count
      ("ws-" ++ "BTC-USDT-SWAP") = 1 :=
  (subscribe_idempotent "BTC-USDT-SWAP" (WsRegistry.mk [] 0 []) (by decide)).2.2.1

/-- Auxiliary for C3/C4: the i-th sample time of `np.linspace(0, T, N+1)`. -/
theorem traj_times_getElem (T : ℝ) (N i : ℕ) (h : i ≤ N) :
    (traj_times T N)[i]? = some ((i : ℝ) * (T / N)) := by
  unfold traj_times
  rw [List.getElem?_map, List.getElem?_range (by omega)]
  rfl

/-- Auxiliary for C3/C4: the branch the code takes when
`eta > 0 and lam * sigma**2 > 0` holds. -/
theorem exec_trajectory_pos_branch (X eta sigma lam T : ℝ) (N : ℕ)
    (h1 : 0 < eta) (h2 : 0 < lam * sigma ^ 2) :
    exec_trajectory X eta sigma lam T N
      = (traj_times T N).map (fun t =>
          X * Real.sinh (Real.sqrt (lam * sigma ^ 2 / eta) * (T - t))
            / Real.sinh (Real.sqrt (lam * sigma ^ 2 / eta) * T)) := by
  unfold exec_trajectory
  rw [if_pos ⟨h1, h2⟩]

/-- Auxiliary for C3/C4: the fallback branch of the trajectory code. -/
theorem exec_trajectory_lin_branch (X eta sigma lam T : ℝ) (N : ℕ)
    (h : ¬(0 < eta ∧ 0 < lam * sigma ^ 2)) :
    exec_trajectory X eta sigma lam T N
      = (traj_times T N).map (fun t => X * (1 - t / T)) := by
  unfold exec_trajectory
  rw [if_neg h]

/-- Auxiliary for C4: both branches sample N+1 points. -/
theorem exec_trajectory_length (X eta sigma lam T : ℝ) (N : ℕ) :
    (exec_trajectory X eta sigma lam T N).length = N + 1 := by
  by_cases hc : 0 < eta ∧ 0 < lam * sigma ^ 2
  · rw [exec_trajectory_pos_branch X eta sigma lam T N hc.1 hc.2]
    simp [traj_times]
  · rw [exec_trajectory_lin_branch X eta sigma lam T N hc]
    simp [traj_times]

/-- Claim C3: for time horizon T > 0 the trajectory computation takes the
linear-decay branch whenever eta <= 0 or lam * sigma^2 <= 0, evaluates the
sinh formula only when eta > 0 and lam * sigma^2 > 0, and in that case the
sqrt argument is strictly positive and the sinh denominator nonzero (and
the linear branch's divisor T is nonzero): no division by zero and no
square root of a non-positive number is ever taken. -/
theorem exec_trajectory_branch_safe (X eta sigma lam T : ℝ) (N : ℕ) (hT : 0 < T) :
    ((eta ≤ 0 ∨ lam * sigma ^ 2 ≤ 0) →
        exec_trajectory X eta sigma lam T N
          = (traj_times T N).map (fun t => X * (1 - t / T)))
    ∧ (0 < eta → 0 < lam * sigma ^ 2 →
        exec_trajectory X eta sigma lam T N
          = (traj_times T N).map (fun t =>
              X * Real.sinh (Real.sqrt (lam * sigma ^ 2 / eta) * (T - t))
                / Real.sinh (Real.sqrt (lam * sigma ^ 2 / eta) * T))
        ∧ 0 < lam * sigma ^ 2 / eta
        ∧ Real.sinh (Real.sqrt (lam * sigma ^ 2 / eta) * T) ≠ 0)
    ∧ T ≠ 0 := by
  refine ⟨?_, ?_, ne_of_gt hT⟩
  · intro h
    refine exec_trajectory_lin_branch X eta sigma lam T N ?_
    rintro ⟨h1, h2⟩
    rcases h with h | h
    · linarith
    · linarith
  · intro h1 h2
    have harg : 0 < lam * sigma ^ 2 / eta := div_pos h2 h1
    have hk : 0 < Real.sqrt (lam * sigma ^ 2 / eta) := Real.sqrt_pos.mpr harg
    have hs : 0 < Real.sinh (Real.sqrt (lam * sigma ^ 2 / eta) * T) :=
      Real.sinh_pos_iff.mpr (mul_pos hk hT)
    exact ⟨exec_trajectory_pos_branch X eta sigma lam T N h1 h2, harg, ne_of_gt hs⟩

/-- Witness for C3 at eta = 0 (kappa undefined): the computation at a
concrete input takes the linear-decay branch. -/
theorem exec_trajectory_branch_safe_witness :
    exec_trajectory 1 0 1 1 1 1 = (traj_times 1 1).map (fun t => 1 * (1 - t / 1)) :=
  (exec_trajectory_branch_safe 1 0 1 1 1 1 one_pos).1 (Or.inl le_rfl)

/-- Claim C4: for X > 0, T > 0 and N >= 1 the trajectory has exactly N+1
points, the sample times are i * (T/N) - evenly spaced with constant step
T/N over [0, T] - and on both branches the trajectory starts at X and
ends at 0 exactly. -/
theorem exec_trajectory_boundary (X eta sigma lam T : ℝ) (N : ℕ)
    (hX : 0 < X) (hT : 0 < T) (hN : 1 ≤ N) :
    (exec_trajectory X eta sigma lam T N).length = N + 1
    ∧ (∀ i : ℕ, i ≤ N → (traj_times T N)[i]? = some ((i : ℝ) * (T / N)))
    ∧ (∀ i : ℕ, i < N → ∀ a b : ℝ, (traj_times T N)[i]? = some a →
          (traj_times T N)[i + 1]? = some b → b - a = T / N)
    ∧ (exec_trajectory X eta sigma lam T N)[0]? = some X
    ∧ (exec_trajectory X eta sigma lam T N)[N]? = some 0 := by
  have hNR : (N : ℝ) ≠ 0 := Nat.cast_ne_zero.mpr (by omega)
  have ht0 : (traj_times T N)[0]? = some 0 := by
    rw [traj_times_getElem T N 0 (by omega)]
    norm_num
  have htN : (traj_times T N)[N]? = some T := by
    rw [traj_times_getElem T N N le_rfl]
    congr 1
    field_simp
  refine ⟨exec_trajectory_length X eta sigma lam T N,
    fun i hi => traj_times_getElem T N i hi, ?_, ?_, ?_⟩
  · intro i hi a b ha hb
    rw [traj_times_getElem T N i (by omega)] at ha
    rw [traj_times_getElem T N (i + 1) (by omega)] at hb
    obtain rfl : ((i : ℝ) * (T / N)) = a := Option.some.inj ha
    obtain rfl : (((i : ℕ) + 1 : ℕ) : ℝ) * (T / N) = b := Option.some.inj hb
    push_cast
    ring
  · by_cases hc : 0 < eta ∧ 0 < lam * sigma ^ 2
    · obtain ⟨h1, h2⟩ := hc
      have harg : 0 < lam * sigma ^ 2 / eta := div_pos h2 h1
      have hk : 0 < Real.sqrt (lam * sigma ^ 2 / eta) := Real.sqrt_pos.mpr harg
      have hs : Real.sinh (Real.sqrt (lam * sigma ^ 2 / eta) * T) ≠ 0 :=
        ne_of_gt (Real.sinh_pos_iff.mpr (mul_pos hk hT))
      rw [exec_trajectory_pos_branch X eta sigma lam T N h1 h2, List.getElem?_map, ht0]
      simp only [Option.map_some']
      congr 1
      rw [sub_zero, mul_div_assoc, div_self hs, mul_one]
    · rw [exec_trajectory_lin_branch X eta sigma lam T N hc, List.getElem?_map, ht0]
      simp only [Option.map_some']
      congr 1
      rw [zero_div, sub_zero, mul_one]
  · by_cases hc : 0 < eta ∧ 0 < lam * sigma ^ 2
    · rw [exec_trajectory_pos_branch X eta sigma lam T N hc.1 hc.2, List.getElem?_map, htN]
      simp only [Option.map_some']
      congr 1
      rw [sub_self, mul_zero, Real.sinh_zero, mul_zero, zero_div]
    · rw [exec_trajectory_lin_branch X eta sigma lam T N hc, List.getElem?_map, htN]
      simp only [Option.map_some']
      congr 1
      rw [div_self (ne_of_gt hT)]
      norm_num

/-- Witness for C4 at a concrete degenerate input: with X = 1, T = 1,
N = 1, the trajectory has 2 points, starts at 1 and ends at 0. -/
theorem exec_trajectory_boundary_witness :
    (exec_trajectory 1 0 0 0 1 1).length = 1 + 1
    ∧ (exec_trajectory 1 0 0 0 1 1)[0]? = some 1
    ∧ (exec_trajectory 1 0 0 0 1 1)[1]? = some 0 := by
  have A := exec_trajectory_boundary 1 0 0 0 1 1 one_pos one_pos le_rfl
  exact ⟨A.1, A.2.2.2.1, A.2.2.2.2⟩

/-- Claim C6: with unit shape exponents alpha = beta = 1,
`almgren_chriss_impact` returns exactly
`eta * (q/T) + gamma * (q/T) + 0.5 * lam * sigma^2 * q^2 / T`. -/
theorem almgren_chriss_formula (q T alpha beta gamma eta sigma lam : ℝ)
    (ha : alpha = 1) (hb : beta = 1) :
    almgren_chriss_impact q T alpha beta gamma eta sigma lam
      = eta * (q / T) + gamma * (q / T) + 0.5 * lam * sigma ^ 2 * q ^ 2 / T := by
  subst ha
  subst hb
  show eta * (q / T) ^ (1 : ℝ) + gamma * (q / T) ^ (1 : ℝ)
      + 0.5 * lam * sigma ^ 2 * q ^ 2 / T
    = eta * (q / T) + gamma * (q / T) + 0.5 * lam * sigma ^ 2 * q ^ 2 / T
  rw [Real.rpow_one]

/-- Witness for C6 at the spec's concrete input: quantity 10, horizon 2,
alpha = beta = 1, gamma = eta = 1, sigma = 2, lambda = 0.5 gives
5 + 5 + 50 = 60. -/
theorem almgren_chriss_formula_witness :
    almgren_chriss_impact 10 2 1 1 1 1 2 0.5 = 60 := by
  rw [almgren_chriss_formula 10 2 1 1 1 1 2 0.5 rfl rfl]
  norm_num

/-- Auxiliary for C7: `np.dot` of the all-zero default weight vector with
any feature vector is zero. -/
theorem dot_replicate_zero (n : ℕ) (f : List ℝ) : dot (List.replicate n 0) f = 0 := by
  induction n generalizing f with
  | zero => simp [dot]
  | succ m ih =>
    cases f with
    | nil => simp [dot]
    | cons x xs =>
      have h := ih xs
      simp [dot, List.replicate_succ, List.zipWith_cons_cons] at h ⊢
      exact h

/-- Claim C7: `predict_maker_proportion` computes the logistic value
`1 / (1 + exp(-(weights . features + bias)))`, and with no model
parameters (zero weights, zero bias) it returns exactly 0.5 on every
feature vector. -/
theorem predict_maker_proportion_logistic :
    (∀ (features w : List ℝ) (b : ℝ),
        predict_maker_proportion features (some ⟨w, b⟩)
          = 1 / (1 + Real.exp (-(dot w features + b))))
    ∧ ∀ features : List ℝ, predict_maker_proportion features none = 1 / 2 := by
  constructor
  · intro f w b
    rfl
  · intro f
    show 1 / (1 + Real.exp (-(dot (List.replicate f.length 0) f + 0))) = 1 / 2
    rw [dot_replicate_zero, add_zero, neg_zero, Real.exp_zero]
    norm_num

/-- Claim C10: `almgren_chriss_impact` validates nothing itself.  With
alpha = beta = 1 and any nonzero time horizon it totally computes a value
(its two divisions by the horizon are its only partial operations), while
at time horizon 0 the very same call reaches the float division-by-zero
branch rather than any typed validation failure. -/
theorem almgren_chriss_no_validation (q T gamma eta sigma lam : ℝ) (hT : T ≠ 0) :
    almgren_chriss_impact_checked q T 1 1 gamma eta sigma lam
      = Except.ok (almgren_chriss_impact q T 1 1 gamma eta sigma lam)
    ∧ almgren_chriss_impact_checked q 0 1 1 gamma eta sigma lam
      = Except.error PyNumError.zeroDivision := by
  constructor
  · have h1 : pydiv q T = .ok (q / T) := by simp [pydiv, hT]
    have h2 : pydiv (0.5 * lam * sigma ^ 2 * q ^ 2) T
        = .ok (0.5 * lam * sigma ^ 2 * q ^ 2 / T) := by simp [pydiv, hT]
    simp only [almgren_chriss_impact_checked, h1, h2]
    rfl
  · have h0 : pydiv q 0 = .error .zeroDivision := by simp [pydiv]
    simp only [almgren_chriss_impact_checked, h0]
    rfl

/-- Witness for C10 at the concrete input of C6's test vector: horizon 2
is nonzero, so the checked computation returns the unchecked value. -/
theorem almgren_chriss_no_validation_witness :
    almgren_chriss_impact_checked 10 2 1 1 1 1 2 0.5
      = Except.ok (almgren_chriss_impact 10 2 1 1 1 1 2 0.5) :=
  (almgren_chriss_no_validation 10 2 1 1 2 0.5 (by norm_num)).1

/-- Claim C2 counterexample: `update_metrics` does NOT surface a typed
failure distinguishable from absence of output.  A tick with an empty bid
side yields `PreventUpdate` - the very same result as no message at all -
and with the alert flag down an invalid parameter (negative quantityUsd)
flows silently into a computed output. -/
theorem update_metrics_counterexample :
    update_metrics (some tick_no_bids) 100 0.3 "Tier 0" 0.001 1 20 false false 0
      = .preventUpdate
    ∧ update_metrics none 100 0.3 "Tier 0" 0.001 1 20 false false 0 = .preventUpdate
    ∧ ∃ m, update_metrics (some tick_good) (-100) 0.3 "Tier 0" 0.001 1 20 false false 0
        = .output m := by
  exact ⟨rfl, rfl, ⟨_, rfl⟩⟩

/-- Claim C2 as amended: on an empty bid or ask side `update_metrics`
raises `PreventUpdate`, the same signal as for an absent message (or an
open alert) - not a typed `InvalidTickError`; the callback does no
parameter validation of its own and skips computation only while the
separate `validate_inputs` callback has opened the alert, which it does
for any non-positive quantity. -/
theorem update_metrics_amended (payload : Payload) (q v lam T lat : ℝ) (ft : String)
    (N : ℕ) (pz az : Bool) (qv : ℚ) (vv rv tv sv : Option ℚ)
    (h : payload.data.bids.isEmpty = true ∨ payload.data.asks.isEmpty = true)
    (hq : qv ≤ 0) :
    update_metrics (some payload) q v ft lam T N false false lat = .preventUpdate
    ∧ update_metrics none q v ft lam T N pz az lat = .preventUpdate
    ∧ update_metrics (some payload) q v ft lam T N pz true lat = .preventUpdate
    ∧ (validate_inputs (some qv) vv rv tv sv).2 = true := by
  refine ⟨?_, rfl, ?_, ?_⟩
  · rcases h with h | h <;> simp [update_metrics, h]
  · simp [update_metrics]
  · simp [validate_inputs, hq]

/-- Witness for C2's amended claim at concrete inputs: the empty-bid tick
is answered with `PreventUpdate`, and `validate_inputs` flags quantity 0. -/
theorem update_metrics_amended_witness :
    update_metrics (some tick_no_bids) 100 0.3 "Tier 0" 0.001 1 20 false false 0
      = .preventUpdate
    ∧ (validate_inputs (some 0) (some 1) (some 1) (some 1) (some 1)).2 = true := by
  have A := update_metrics_amended tick_no_bids 100 0.3 0.001 1 0 "Tier 0" 20 true true
    (0 : ℚ) (some 1) (some 1) (some 1) (some 1) (Or.inl rfl) le_rfl
  exact ⟨A.1, A.2.2.2⟩

end GoQuant
